import Mathlib

/-!
Verification development for the native file-events watcher engines
(macOS FSEvents and Windows ReadDirectoryChangesW) and the shared
command pipeline. Strings of the C++ code (`std::u16string`) are
embedded as lists of natural numbers (UTF-16 code units); bit masks
(`FSEventStreamEventFlags`, Windows error codes and actions) are
embedded as natural numbers with the usual bitwise operations.
-/

set_option autoImplicit false

namespace NativePlatform

/-- UTF-16 string of the C++ code, one `Nat` per code unit. -/
abbrev U16Str := List Nat

/-- The `IS_SET(flags, flag)` macro from generic_fsnotifier.h:
`((flags) & (flag)) == (flag)` — every bit of the mask must be set. -/
def IS_SET (flags mask : Nat) : Bool :=
  flags &&& mask == mask

/-- The `IS_ANY_SET(flags, mask)` macro from generic_fsnotifier.h:
`((flags) & (mask)) != 0` — at least one bit of the mask is set. -/
def IS_ANY_SET (flags mask : Nat) : Bool :=
  flags &&& mask != 0

/-- The five canonical change kinds (`ChangeType` / `FILE_EVENT_*`). -/
inductive ChangeType where
  | created
  | removed
  | modified
  | invalidated
  | unknown
deriving DecidableEq, Repr

/-- `WatchPointStatus` from generic_fsnotifier.h. -/
inductive WatchPointStatus where
  | NOT_LISTENING
  | LISTENING
  | CANCELLED
  | FINISHED
deriving DecidableEq, Repr

namespace Apple

/-- macOS per-watch-point age tag (`WatchPointState` in apple_fsnotifier). -/
inductive WatchPointState where
  | NEW
  | HISTORICAL
deriving DecidableEq, Repr

/-! FSEvents flag constants (CoreServices FSEvents.h values). -/

def kFSEventStreamEventFlagMustScanSubDirs : Nat := 0x1
def kFSEventStreamEventFlagUserDropped : Nat := 0x2
def kFSEventStreamEventFlagKernelDropped : Nat := 0x4
def kFSEventStreamEventFlagEventIdsWrapped : Nat := 0x8
def kFSEventStreamEventFlagHistoryDone : Nat := 0x10
def kFSEventStreamEventFlagRootChanged : Nat := 0x20
def kFSEventStreamEventFlagMount : Nat := 0x40
def kFSEventStreamEventFlagUnmount : Nat := 0x80
def kFSEventStreamEventFlagItemCreated : Nat := 0x100
def kFSEventStreamEventFlagItemRemoved : Nat := 0x200
def kFSEventStreamEventFlagItemInodeMetaMod : Nat := 0x400
def kFSEventStreamEventFlagItemRenamed : Nat := 0x800
def kFSEventStreamEventFlagItemModified : Nat := 0x1000
def kFSEventStreamEventFlagItemFinderInfoMod : Nat := 0x2000
def kFSEventStreamEventFlagItemChangeOwner : Nat := 0x4000
def kFSEventStreamEventFlagItemXattrMod : Nat := 0x8000
def kFSEventStreamEventFlagItemIsFile : Nat := 0x10000
def kFSEventStreamEventFlagItemIsDir : Nat := 0x20000
def kFSEventStreamEventFlagItemIsSymlink : Nat := 0x40000
def kFSEventStreamEventFlagOwnEvent : Nat := 0x80000
def kFSEventStreamEventFlagItemIsHardlink : Nat := 0x100000
def kFSEventStreamEventFlagItemIsLastHardlink : Nat := 0x200000
def kFSEventStreamEventFlagItemCloned : Nat := 0x400000

/-- `kFSEventStreamEventIdSinceNow` (0xFFFFFFFFFFFFFFFF). -/
def kFSEventStreamEventIdSinceNow : Nat := 0xFFFFFFFFFFFFFFFF

/-- The `IGNORED_FLAGS` constant of apple_fsnotifier.cpp. -/
def IGNORED_FLAGS : Nat :=
  kFSEventStreamEventFlagUserDropped
    ||| kFSEventStreamEventFlagKernelDropped
    ||| kFSEventStreamEventFlagEventIdsWrapped
    ||| kFSEventStreamEventFlagHistoryDone
    ||| kFSEventStreamEventFlagItemIsFile
    ||| kFSEventStreamEventFlagItemIsDir
    ||| kFSEventStreamEventFlagItemIsSymlink
    ||| kFSEventStreamEventFlagOwnEvent
    ||| kFSEventStreamEventFlagItemIsHardlink
    ||| kFSEventStreamEventFlagItemIsLastHardlink
    ||| kFSEventStreamEventFlagItemCloned

/-- Complement of `IGNORED_FLAGS` within the 32-bit flag word, so that
`flags & ~IGNORED_FLAGS` of the C++ code becomes
`flags &&& NOT_IGNORED_MASK` for 32-bit flag values. -/
def NOT_IGNORED_MASK : Nat := 0xFFFFFFFF ^^^ IGNORED_FLAGS

/-- Outcome of one report call of the macOS server: `reportChangeEvent`,
`reportOverflow` or `reportUnknownEvent`. -/
inductive Report where
  | change (type : ChangeType) (path : U16Str)
  | overflow (path : U16Str)
  | unknownEvent (path : U16Str)
deriving DecidableEq, Repr

/-- `Server::handleEvent` of apple_fsnotifier.cpp: normalization of one
event's flag word into the report that is emitted for `path`. -/
def Server.handleEvent (path : U16Str) (flags : Nat) : Report :=
  if IS_SET flags kFSEventStreamEventFlagMustScanSubDirs then
    .overflow path
  else if IS_SET flags (kFSEventStreamEventFlagMount ||| kFSEventStreamEventFlagUnmount) then
    .change .invalidated path
  else if IS_SET flags kFSEventStreamEventFlagItemRenamed then
    if IS_SET flags kFSEventStreamEventFlagItemCreated then
      .change .removed path
    else
      .change .created path
  else if IS_SET flags kFSEventStreamEventFlagItemModified then
    .change .modified path
  else if IS_SET flags kFSEventStreamEventFlagItemRemoved then
    .change .removed path
  else if IS_SET flags
      (kFSEventStreamEventFlagItemInodeMetaMod
        ||| kFSEventStreamEventFlagItemFinderInfoMod
        ||| kFSEventStreamEventFlagItemChangeOwner
        ||| kFSEventStreamEventFlagItemXattrMod) then
    .change .modified path
  else if IS_SET flags kFSEventStreamEventFlagItemCreated then
    .change .created path
  else
    .unknownEvent path

/-- Normalization table of spec section 4.2, stated with the spec's
"or" / "any of" reading of the grouped rows, in the table's order.
This definition follows the spec's words and is compared against the
code's `Server.handleEvent`. -/
def specNormalizationKind (path : U16Str) (flags : Nat) : Report :=
  if IS_SET flags kFSEventStreamEventFlagMustScanSubDirs then
    .overflow path
  else if IS_ANY_SET flags (kFSEventStreamEventFlagMount ||| kFSEventStreamEventFlagUnmount) then
    .change .invalidated path
  else if IS_SET flags kFSEventStreamEventFlagItemRenamed then
    if IS_SET flags kFSEventStreamEventFlagItemCreated then
      .change .removed path
    else
      .change .created path
  else if IS_SET flags kFSEventStreamEventFlagItemModified then
    .change .modified path
  else if IS_SET flags kFSEventStreamEventFlagItemRemoved then
    .change .removed path
  else if IS_ANY_SET flags
      (kFSEventStreamEventFlagItemInodeMetaMod
        ||| kFSEventStreamEventFlagItemFinderInfoMod
        ||| kFSEventStreamEventFlagItemChangeOwner
        ||| kFSEventStreamEventFlagItemXattrMod) then
    .change .modified path
  else if IS_SET flags kFSEventStreamEventFlagItemCreated then
    .change .created path
  else
    .unknownEvent path

/-- One prefix test of `Server::getWatchPointState`, exactly as coded:
`path.compare(0, root.size(), root) == 0 && (root.size() == path.size()
|| path.at(root.size() == '/'))`. The sub-expression `root.size() == '/'`
compares the length with the character code 47 and yields a boolean used
as index 0 or 1; the character read there is used as a truth value.
`Except.error` models the `std::out_of_range` throw of `at`. -/
def watchPointMatches (root path : U16Str) : Except Unit Bool :=
  if path.take root.length = root then
    if root.length = path.length then
      .ok true
    else
      let idx : Nat := if root.length = 47 then 1 else 0
      match path[idx]? with
      | some c => .ok (c != 0)
      | none => .error ()
  else
    .ok false

/-- `Server::getWatchPointState` of apple_fsnotifier.cpp over the watch
point map embedded as an association list; `Except.error` models the
thrown `FileWatcherException` (or `std::out_of_range` from `at`). -/
def Server.getWatchPointState
    (watchPoints : List (U16Str × WatchPointState)) (path : U16Str) :
    Except Unit WatchPointState :=
  match watchPoints with
  | [] => .error ()
  | (root, state) :: rest =>
    match watchPointMatches root path with
    | .error e => .error e
    | .ok true => .ok state
    | .ok false => Server.getWatchPointState rest path

/-- Intended watch-point predicate from the spec: the queried path
equals the registered root, or starts with the root immediately
followed by the character code 47, which is the slash. -/
def specWatchPointMatches (root path : U16Str) : Bool :=
  path = root || path.take (root.length + 1) = root ++ [47]

/-- State of the macOS `Server` relevant to the embedded operations:
the watch point map, `lastSeenEventId`,
`finishedProcessingHistoricalEvents`, and whether `eventStream` is
non-null (a live FSEvents stream exists). -/
structure ServerState where
  watchPoints : List (U16Str × WatchPointState)
  lastSeenEventId : Nat
  finishedProcessingHistoricalEvents : Bool
  eventStream : Bool
deriving DecidableEq, Repr

/-- Membership test of the watch point map (`watchPoints.find(path)`). -/
def containsPath (watchPoints : List (U16Str × WatchPointState)) (path : U16Str) : Bool :=
  watchPoints.any (fun entry => entry.1 == path)

/-- Erasure of a key from the watch point map (`watchPoints.erase(path)`). -/
def erasePath (watchPoints : List (U16Str × WatchPointState)) (path : U16Str) :
    List (U16Str × WatchPointState) :=
  watchPoints.filter (fun entry => entry.1 != path)

/-- `Server::openEventStream`: returns immediately when the watch point
map is empty; otherwise recomputes
`finishedProcessingHistoricalEvents` from `lastSeenEventId` and starts
a stream. Allocation failures of the happy path are not modelled. -/
def Server.openEventStream (s : ServerState) : ServerState :=
  if s.watchPoints.isEmpty then
    s
  else
    { s with
      finishedProcessingHistoricalEvents :=
        s.lastSeenEventId == kFSEventStreamEventIdSinceNow,
      eventStream := true }

/-- `Server::closeEventStream`: after it, no stream is held (a no-op
when the stream is already null). -/
def Server.closeEventStream (s : ServerState) : ServerState :=
  { s with eventStream := false }

/-- The registration loop of `Server::registerPaths`: for each path, a
hit in the map throws `FileWatcherException("Already watching path")`
(second component `false`), aborting the loop with the paths inserted
so far kept; otherwise the path is inserted with state `HISTORICAL`
when `lastSeenEventId` is `kFSEventStreamEventIdSinceNow`, `NEW`
otherwise. -/
def registerLoop (lastSeenEventId : Nat)
    (watchPoints : List (U16Str × WatchPointState)) :
    List U16Str → List (U16Str × WatchPointState) × Bool
  | [] => (watchPoints, true)
  | path :: rest =>
    if containsPath watchPoints path then
      (watchPoints, false)
    else
      let state : WatchPointState :=
        if lastSeenEventId == kFSEventStreamEventIdSinceNow then
          .HISTORICAL
        else
          .NEW
      registerLoop lastSeenEventId (watchPoints ++ [(path, state)]) rest

/-- `Server::registerPaths` of apple_fsnotifier.cpp (the body run on
the run loop): close the stream, insert each path (throwing on an
already-watched path), and reopen the stream only when the loop
completed without throwing. The second component is `false` exactly
when the `FileWatcherException` was thrown. -/
def Server.registerPaths (s : ServerState) (paths : List U16Str) : ServerState × Bool :=
  let s1 := Server.closeEventStream s
  let result := registerLoop s1.lastSeenEventId s1.watchPoints paths
  let s2 := { s1 with watchPoints := result.1 }
  if result.2 then (Server.openEventStream s2, true) else (s2, false)

/-- The erase loop of `Server::unregisterPaths`: every path of the list
is erased; `success` becomes `false` whenever an erase removed
nothing. -/
def unregisterLoop (watchPoints : List (U16Str × WatchPointState)) :
    List U16Str → List (U16Str × WatchPointState) × Bool
  | [] => (watchPoints, true)
  | path :: rest =>
    let found := containsPath watchPoints path
    let result := unregisterLoop (erasePath watchPoints path) rest
    (result.1, found && result.2)

/-- `Server::unregisterPaths` of apple_fsnotifier.cpp (the body run on
the run loop): close the stream, erase every path, reopen the stream,
and return whether every path was found. -/
def Server.unregisterPaths (s : ServerState) (paths : List U16Str) : ServerState × Bool :=
  let s1 := Server.closeEventStream s
  let result := unregisterLoop s1.watchPoints paths
  (Server.openEventStream { s1 with watchPoints := result.1 }, result.2)

/-- One event of an FSEvents batch as seen by `Server::handleEvents`:
its path (already converted to UTF-16), flag word and event id. -/
structure AppleEvent where
  path : U16Str
  flags : Nat
  eventId : Nat
deriving DecidableEq, Repr

/-- The body of the per-event loop of `Server::handleEvents` for one
event. Returns the new server state, the reports emitted for this
event — each paired with the value of `lastSeenEventId` at the moment
the report call was made — and whether an exception was thrown (a
`getWatchPointState` miss), which aborts the whole batch. -/
def Server.processEvent (s : ServerState) (ev : AppleEvent) :
    ServerState × List (Nat × Report) × Bool :=
  let s := { s with lastSeenEventId := ev.eventId }
  if IS_SET ev.flags kFSEventStreamEventFlagHistoryDone then
    ({ s with
        watchPoints := s.watchPoints.map (fun entry =>
          match entry.2 with
          | .NEW => (entry.1, .HISTORICAL)
          | .HISTORICAL => entry),
        finishedProcessingHistoricalEvents := true },
      [], false)
  else if ev.eventId == 0 && IS_SET ev.flags kFSEventStreamEventFlagRootChanged then
    (s, [(s.lastSeenEventId, .change .invalidated ev.path)], false)
  else
    let tail : List (Nat × Report) :=
      if ev.flags &&& NOT_IGNORED_MASK == 0 then
        []
      else
        [(s.lastSeenEventId, Server.handleEvent ev.path ev.flags)]
    if !s.finishedProcessingHistoricalEvents then
      match Server.getWatchPointState s.watchPoints ev.path with
      | .error _ => (s, [], true)
      | .ok state =>
        if state == .NEW then (s, [], false) else (s, tail, false)
    else
      (s, tail, false)

/-- `Server::handleEvents` over a whole batch: events are processed in
order; a thrown exception is caught outside the loop (`reportFailure`),
so the remaining events of the batch are not processed. The third
component records whether the batch was aborted that way. -/
def Server.handleEvents (s : ServerState) :
    List AppleEvent → ServerState × List (Nat × Report) × Bool
  | [] => (s, [], false)
  | ev :: rest =>
    let r1 := Server.processEvent s ev
    if r1.2.2 then
      (r1.1, r1.2.1, true)
    else
      let r2 := Server.handleEvents r1.1 rest
      (r2.1, r1.2.1 ++ r2.2.1, r2.2.2)

/-- The successive values taken by `lastSeenEventId` after each
processed event of a batch. -/
def Server.lastSeenTrace (s : ServerState) : List AppleEvent → List Nat
  | [] => []
  | ev :: rest =>
    let r1 := Server.processEvent s ev
    r1.1.lastSeenEventId :: (if r1.2.2 then [] else Server.lastSeenTrace r1.1 rest)

end Apple

namespace Win

/-! Windows constants: error codes, `FILE_ACTION_*` values and the
`FILE_EVENT_*` codes of generic_fsnotifier.h. Character codes used in
the path helpers: 92 is the backslash, 58 the colon, 63 the question
mark, 85 78 67 spell `UNC`. -/

def ERROR_SUCCESS : Nat := 0
def ERROR_ACCESS_DENIED : Nat := 5
def ERROR_OPERATION_ABORTED : Nat := 995

def FILE_ACTION_ADDED : Nat := 1
def FILE_ACTION_REMOVED : Nat := 2
def FILE_ACTION_MODIFIED : Nat := 3
def FILE_ACTION_RENAMED_OLD_NAME : Nat := 4
def FILE_ACTION_RENAMED_NEW_NAME : Nat := 5

def FILE_EVENT_CREATED : Nat := 0
def FILE_EVENT_REMOVED : Nat := 1
def FILE_EVENT_MODIFIED : Nat := 2
def FILE_EVENT_INVALIDATE : Nat := 3
def FILE_EVENT_UNKNOWN : Nat := 4

/-- The code units of the string of four characters backslash,
backslash, question mark, backslash. -/
def LONG_PATH_START : U16Str := [92, 92, 63, 92]

/-- The code units of the eight-character long UNC marker: the four of
`LONG_PATH_START` followed by the letters U, N, C and a backslash. -/
def UNC_LONG_PATH_START : U16Str := [92, 92, 63, 92, 85, 78, 67, 92]

/-- `isAbsoluteLocalPath` of win_fsnotifier.cpp: length at least 3, a
drive letter, a colon, a backslash. -/
def isAbsoluteLocalPath (path : U16Str) : Bool :=
  if path.length < 3 then
    false
  else
    (match path[0]? with
      | some c => (97 ≤ c && c ≤ 122) || (65 ≤ c && c ≤ 90)
      | none => false)
      && path[1]? == some 58
      && path[2]? == some 92

/-- `isAbsoluteUncPath` of win_fsnotifier.cpp: length at least 3 and
two leading backslashes. -/
def isAbsoluteUncPath (path : U16Str) : Bool :=
  if path.length < 3 then
    false
  else
    path[0]? == some 92 && path[1]? == some 92

/-- `isLongPath` of win_fsnotifier.cpp: the first four code units are
the long-path marker. -/
def isLongPath (path : U16Str) : Bool :=
  4 ≤ path.length && path.take 4 == LONG_PATH_START

/-- `isUncLongPath` of win_fsnotifier.cpp: the first eight code units
are the long UNC marker. -/
def isUncLongPath (path : U16Str) : Bool :=
  8 ≤ path.length && path.take 8 == UNC_LONG_PATH_START

/-- `convertToLongPathIfNeeded` of win_fsnotifier.cpp. -/
def convertToLongPathIfNeeded (path : U16Str) : U16Str :=
  if path.length ≤ 240 then
    path
  else if isLongPath path then
    path
  else if isAbsoluteLocalPath path then
    LONG_PATH_START ++ path
  else if isAbsoluteUncPath path then
    UNC_LONG_PATH_START ++ path.drop 2
  else
    path

/-- The reverse transform applied in `Server::handleEvent` before a
change is reported: a long UNC path loses its eight-unit marker and
regains two backslashes; any other long path loses the four-unit
marker; other paths pass through. -/
def stripLongPathMarker (changedPath : U16Str) : U16Str :=
  if isLongPath changedPath then
    if isUncLongPath changedPath then
      [92, 92] ++ changedPath.drop 8
    else
      changedPath.drop 4
  else
    changedPath

/-- One `FILE_NOTIFY_INFORMATION` entry: its action code and file name
(relative to the watch root, empty for the root itself). -/
structure FileNotifyInfo where
  action : Nat
  fileName : U16Str
deriving DecidableEq, Repr

/-- `Server::handleEvent` of win_fsnotifier.cpp: builds the changed
path from the watch root and the entry's file name, strips the
long-path marker, translates the action, and returns the
`reportChange` arguments (type code, path). -/
def Server.handleEvent (rootPath : U16Str) (info : FileNotifyInfo) : Nat × U16Str :=
  let changedPath :=
    if info.fileName.isEmpty then
      rootPath
    else
      rootPath ++ 92 :: info.fileName
  let changedPath := stripLongPathMarker changedPath
  let type :=
    if info.action == FILE_ACTION_ADDED || info.action == FILE_ACTION_RENAMED_NEW_NAME then
      FILE_EVENT_CREATED
    else if info.action == FILE_ACTION_REMOVED || info.action == FILE_ACTION_RENAMED_OLD_NAME then
      FILE_EVENT_REMOVED
    else if info.action == FILE_ACTION_MODIFIED then
      FILE_EVENT_MODIFIED
    else
      FILE_EVENT_UNKNOWN
  (type, changedPath)

/-- Outcome of `WatchPoint::listen` when re-arming the read: either
`ReadDirectoryChangesW` succeeded, or it failed with `ACCESS_DENIED` on
a path that is no longer a directory (`DELETED`), or it failed some
other way and threw. -/
inductive ListenOutcome where
  | success
  | deleted
  | failed
deriving DecidableEq, Repr

/-- Environment of one completion-routine run, standing for the
syscalls it performs: the result `isValidDirectory()` would return and
the outcome of the `listen()` re-arm. -/
structure WinEnv where
  validDir : Bool
  listenOutcome : ListenOutcome
deriving DecidableEq, Repr

/-- Result of one completion-routine run: the watch point's final
status, the `reportChange` calls made (type code, path) in order, and
whether an exception was caught and turned into a `reportError` call. -/
structure WinResult where
  status : WatchPointStatus
  reports : List (Nat × U16Str)
  errorReported : Bool
deriving DecidableEq, Repr

/-- `Server::handleEvents` of win_fsnotifier.cpp, entered with the
watch point status already set to `NOT_LISTENING` by
`WatchPoint::handleEventsInBuffer`. The buffer walk over
`NextEntryOffset` is embedded as the list of entries it visits. -/
def Server.handleEvents (env : WinEnv) (terminated : Bool)
    (status : WatchPointStatus) (path : U16Str) (errorCode : Nat)
    (buffer : List FileNotifyInfo) (bytesTransferred : Nat) : WinResult :=
  if errorCode != ERROR_SUCCESS && !(errorCode == ERROR_ACCESS_DENIED && !env.validDir) then
    -- throw FileWatcherException, caught at the end of handleEvents
    ⟨status, [], true⟩
  else
    let initialReports : List (Nat × U16Str) :=
      if errorCode != ERROR_SUCCESS then
        [(FILE_EVENT_REMOVED, path)]
      else
        []
    if terminated then
      ⟨status, initialReports, false⟩
    else if bytesTransferred == 0 then
      ⟨.FINISHED, initialReports ++ [(FILE_EVENT_INVALIDATE, path)], false⟩
    else
      let parsed := buffer.map (Server.handleEvent path)
      match env.listenOutcome with
      | .success => ⟨.LISTENING, initialReports ++ parsed, false⟩
      | .deleted => ⟨.FINISHED, initialReports ++ parsed ++ [(FILE_EVENT_REMOVED, path)], false⟩
      | .failed => ⟨.FINISHED, initialReports ++ parsed, true⟩

/-- `WatchPoint::handleEventsInBuffer` of win_fsnotifier.cpp: an
aborted completion closes the handle and finishes; a non-listening
watch point ignores the events; otherwise the status drops to
`NOT_LISTENING` and `Server::handleEvents` runs. -/
def WatchPoint.handleEventsInBuffer (env : WinEnv) (terminated : Bool)
    (status : WatchPointStatus) (path : U16Str) (errorCode : Nat)
    (buffer : List FileNotifyInfo) (bytesTransferred : Nat) : WinResult :=
  if errorCode == ERROR_OPERATION_ABORTED then
    ⟨.FINISHED, [], false⟩
  else if status != .LISTENING then
    ⟨status, [], false⟩
  else
    Server.handleEvents env terminated .NOT_LISTENING path errorCode buffer bytesTransferred

/-- Lookup in the Windows watch point map (`watchPoints.find(path)`). -/
def lookupPath (watchPoints : List (U16Str × WatchPointStatus)) (path : U16Str) :
    Option WatchPointStatus :=
  match watchPoints with
  | [] => none
  | (p, st) :: rest => if p == path then some st else lookupPath rest path

/-- Erasure of a key from the Windows watch point map. -/
def eraseWinPath (watchPoints : List (U16Str × WatchPointStatus)) (path : U16Str) :
    List (U16Str × WatchPointStatus) :=
  watchPoints.filter (fun entry => entry.1 != path)

/-- The `emplace` of a freshly constructed `WatchPoint`: the
constructor opens the directory and arms the first read, finishing in
some status or throwing; its outcome is passed in as `ctor`. A throwing
constructor inserts nothing. -/
def emplaceWatchPoint (watchPoints : List (U16Str × WatchPointStatus))
    (path : U16Str) (ctor : Except Unit WatchPointStatus) :
    Except Unit (List (U16Str × WatchPointStatus)) :=
  match ctor with
  | .ok status => .ok (watchPoints ++ [(path, status)])
  | .error e => .error e

/-- `Server::registerPath` of win_fsnotifier.cpp: convert to the long
form, throw `FileWatcherException("Already watching path")` when a
watch point for it exists with a status other than `FINISHED`, erase a
`FINISHED` one, then construct and insert the new watch point. -/
def Server.registerPath (watchPoints : List (U16Str × WatchPointStatus))
    (path : U16Str) (ctor : Except Unit WatchPointStatus) :
    Except Unit (List (U16Str × WatchPointStatus)) :=
  let longPath := convertToLongPathIfNeeded path
  match lookupPath watchPoints longPath with
  | some status =>
    if status != .FINISHED then
      .error ()
    else
      emplaceWatchPoint (eraseWinPath watchPoints longPath) longPath ctor
  | none => emplaceWatchPoint watchPoints longPath ctor

/-- `Server::unregisterPath` of win_fsnotifier.cpp: convert to the long
form and erase; a miss only logs and returns. -/
def Server.unregisterPath (watchPoints : List (U16Str × WatchPointStatus))
    (path : U16Str) : List (U16Str × WatchPointStatus) :=
  eraseWinPath watchPoints (convertToLongPathIfNeeded path)

end Win

/-- State of one `Command` of generic_fsnotifier.h observable by the
submitter: the captured `failure` slot and how many times the
`executed` condition variable has been notified. -/
structure CommandState (E : Type) where
  failure : Option E
  notifyCount : Nat
deriving DecidableEq, Repr

/-- `Command::execute` of generic_fsnotifier.h: run `perform`,
capturing a thrown exception into `failure`, then notify `executed`
once, in all cases. The outcome of the virtual `perform` call is passed
in as an `Except` value. -/
def Command.execute {E : Type} (perform : Except E Unit) (c : CommandState E) : CommandState E :=
  let c1 :=
    match perform with
    | .ok _ => c
    | .error e => { c with failure := some e }
  { c1 with notifyCount := c1.notifyCount + 1 }

/-! Helper lemmas. -/

/-- Membership in the watch point map survives appending entries. -/
theorem containsPath_append (wps l : List (U16Str × Apple.WatchPointState)) (p : U16Str)
    (h : Apple.containsPath wps p = true) :
    Apple.containsPath (wps ++ l) p = true := by
  simp only [Apple.containsPath, List.any_append] at h ⊢
  rw [h]
  rfl

/-- The registration loop fails whenever some path of the list is
already present in the map when it comes up; in particular whenever it
is present from the start, since the loop only adds entries. -/
theorem registerLoop_already_watched (lastSeenEventId : Nat) (p : U16Str) :
    ∀ (paths : List U16Str) (wps : List (U16Str × Apple.WatchPointState)),
      p ∈ paths → Apple.containsPath wps p = true →
      (Apple.registerLoop lastSeenEventId wps paths).2 = false := by
  intro paths
  induction paths with
  | nil =>
    intro wps hmem _
    cases hmem
  | cons q rest ih =>
    intro wps hmem hcontains
    cases hcq : Apple.containsPath wps q with
    | true =>
      simp [Apple.registerLoop, hcq]
    | false =>
      have hpq : p ≠ q := by
        intro he
        rw [he, hcq] at hcontains
        cases hcontains
      have hrest : p ∈ rest := by
        cases hmem with
        | head => exact absurd rfl hpq
        | tail _ hm => exact hm
      simp only [Apple.registerLoop, hcq, Bool.false_eq_true, if_false]
      exact ih _ hrest (containsPath_append _ _ _ hcontains)

/-- Erasing one key leaves membership of any other key unchanged. -/
theorem containsPath_erasePath (p q : U16Str) (h : p ≠ q) :
    ∀ wps, Apple.containsPath (Apple.erasePath wps q) p = Apple.containsPath wps p := by
  intro wps
  induction wps with
  | nil => rfl
  | cons e rest ih =>
    simp only [Apple.erasePath, List.filter] at ih ⊢
    cases he : (e.1 != q) with
    | true =>
      simp only [Apple.containsPath, List.any_cons] at ih ⊢
      rw [ih]
    | false =>
      have heq : e.1 = q := by simpa using he
      have hne : (e.1 == p) = false := by
        simp only [heq, beq_eq_false_iff_ne, ne_eq]
        exact fun hh => h hh.symm
      simp only [Apple.containsPath, List.any_cons, hne, Bool.false_or] at ih ⊢
      exact ih

/-- The erase loop of `unregisterPaths` reports failure exactly when
some path of a duplicate-free list is missing from the initial map. -/
theorem unregisterLoop_false_iff (paths : List U16Str) :
    ∀ wps, paths.Nodup →
      ((Apple.unregisterLoop wps paths).2 = false
        ↔ ∃ p ∈ paths, Apple.containsPath wps p = false) := by
  induction paths with
  | nil =>
    intro wps _
    simp [Apple.unregisterLoop]
  | cons q rest ih =>
    intro wps hnd
    rw [List.nodup_cons] at hnd
    obtain ⟨hq, hnd'⟩ := hnd
    simp only [Apple.unregisterLoop]
    cases hcq : Apple.containsPath wps q with
    | false =>
      simp only [hcq, Bool.false_and]
      constructor
      · intro _
        exact ⟨q, List.mem_cons_self q rest, hcq⟩
      · intro _
        trivial
    | true =>
      simp only [hcq, Bool.true_and]
      rw [ih (Apple.erasePath wps q) hnd']
      constructor
      · rintro ⟨p, hp, hc⟩
        have hpq : p ≠ q := fun he => hq (he ▸ hp)
        refine ⟨p, List.mem_cons_of_mem q hp, ?_⟩
        rw [← containsPath_erasePath p q hpq wps]
        exact hc
      · rintro ⟨p, hp, hc⟩
        cases hp with
        | head =>
          rw [hcq] at hc
          cases hc
        | tail _ hm =>
          have hpq : p ≠ q := fun he => hq (he ▸ hm)
          refine ⟨p, hm, ?_⟩
          rw [containsPath_erasePath p q hpq wps]
          exact hc

/-- The erase loop erases every path of the list, misses included. -/
theorem unregisterLoop_removes_all (paths : List U16Str) :
    ∀ wps, (Apple.unregisterLoop wps paths).1 = paths.foldl Apple.erasePath wps := by
  induction paths with
  | nil =>
    intro wps
    rfl
  | cons q rest ih =>
    intro wps
    simp only [Apple.unregisterLoop, List.foldl]
    exact ih _

/-- Opening the event stream does not change the watch point map. -/
theorem openEventStream_watchPoints (s : Apple.ServerState) :
    (Apple.Server.openEventStream s).watchPoints = s.watchPoints := by
  unfold Apple.Server.openEventStream
  split <;> rfl

/-- On a server holding no stream, opening makes a stream exist
exactly when the watch point map is non-empty. -/
theorem openEventStream_eventStream (s : Apple.ServerState) (h : s.eventStream = false) :
    ((Apple.Server.openEventStream s).eventStream = true ↔ s.watchPoints ≠ []) := by
  cases hemp : s.watchPoints.isEmpty with
  | true =>
    have hnil : s.watchPoints = [] := List.isEmpty_iff.mp hemp
    simp [Apple.Server.openEventStream, hemp, h, hnil]
  | false =>
    have hne : s.watchPoints ≠ [] := by
      intro he
      rw [he] at hemp
      cases hemp
    simp [Apple.Server.openEventStream, hemp, hne]

/-- Processing one event always stores that event's id in
`lastSeenEventId`, whatever branch the event takes. -/
theorem processEvent_lastSeenEventId (s : Apple.ServerState) (ev : Apple.AppleEvent) :
    (Apple.Server.processEvent s ev).1.lastSeenEventId = ev.eventId := by
  unfold Apple.Server.processEvent
  dsimp only
  repeat' split
  all_goals rfl

/-- Every report emitted while processing one event is tagged with a
`lastSeenEventId` equal to that event's id: the id assignment happens
before any callback for the event. -/
theorem processEvent_reports_tagged (s : Apple.ServerState) (ev : Apple.AppleEvent) :
    ∀ pr ∈ (Apple.Server.processEvent s ev).2.1, pr.1 = ev.eventId := by
  unfold Apple.Server.processEvent
  dsimp only
  repeat' split
  all_goals intro pr hpr
  all_goals simp_all

/-- Every value the trace of `lastSeenEventId` takes is the id of some
event of the batch. -/
theorem mem_lastSeenTrace (b : Nat) :
    ∀ (evs : List Apple.AppleEvent) (s : Apple.ServerState),
      b ∈ Apple.Server.lastSeenTrace s evs → b ∈ evs.map Apple.AppleEvent.eventId := by
  intro evs
  induction evs with
  | nil =>
    intro s h
    cases h
  | cons ev rest ih =>
    intro s h
    simp only [Apple.Server.lastSeenTrace] at h
    rw [List.mem_cons] at h
    rw [List.map_cons, List.mem_cons]
    cases h with
    | inl h =>
      rw [processEvent_lastSeenEventId] at h
      exact Or.inl h
    | inr h =>
      cases hab : (Apple.Server.processEvent s ev).2.2 with
      | true =>
        rw [hab] at h
        simp at h
      | false =>
        rw [hab] at h
        simp only [Bool.false_eq_true, if_false] at h
        exact Or.inr (ih _ h)

/-- When the ids of a batch arrive in non-decreasing order, the values
`lastSeenEventId` takes over the batch are non-decreasing. -/
theorem lastSeenTrace_pairwise :
    ∀ (evs : List Apple.AppleEvent) (s : Apple.ServerState),
      List.Pairwise (· ≤ ·) (evs.map Apple.AppleEvent.eventId) →
      List.Pairwise (· ≤ ·) (Apple.Server.lastSeenTrace s evs) := by
  intro evs
  induction evs with
  | nil =>
    intro s _
    exact List.Pairwise.nil
  | cons ev rest ih =>
    intro s hp
    rw [List.map_cons, List.pairwise_cons] at hp
    obtain ⟨hhead, htail⟩ := hp
    simp only [Apple.Server.lastSeenTrace]
    rw [List.pairwise_cons]
    constructor
    · intro b hb
      rw [processEvent_lastSeenEventId]
      cases hab : (Apple.Server.processEvent s ev).2.2 with
      | true =>
        rw [hab] at hb
        simp at hb
      | false =>
        rw [hab] at hb
        simp only [Bool.false_eq_true, if_false] at hb
        exact hhead b (mem_lastSeenTrace b rest _ hb)
    · cases hab : (Apple.Server.processEvent s ev).2.2 with
      | true =>
        simp [hab]
      | false =>
        simp only [hab, Bool.false_eq_true, if_false]
        exact ih _ htail

/-- An absolute local path is a drive letter, a colon (58) and a
backslash (92) followed by anything. -/
theorem absoluteLocalPath_shape (P : U16Str) (h : Win.isAbsoluteLocalPath P = true) :
    ∃ a rest, P = a :: 58 :: 92 :: rest := by
  match P with
  | [] => simp [Win.isAbsoluteLocalPath] at h
  | [a] => simp [Win.isAbsoluteLocalPath] at h
  | [a, b] => simp [Win.isAbsoluteLocalPath] at h
  | a :: b :: c :: rest =>
    simp only [Win.isAbsoluteLocalPath, List.length_cons] at h
    simp at h
    refine ⟨a, rest, ?_⟩
    simp_all

/-- An absolute UNC path is two backslashes followed by at least one
more unit. -/
theorem absoluteUncPath_shape (P : U16Str) (h : Win.isAbsoluteUncPath P = true) :
    ∃ c rest, P = 92 :: 92 :: c :: rest := by
  match P with
  | [] => simp [Win.isAbsoluteUncPath] at h
  | [a] => simp [Win.isAbsoluteUncPath] at h
  | [a, b] => simp [Win.isAbsoluteUncPath] at h
  | a :: b :: c :: rest =>
    simp only [Win.isAbsoluteUncPath, List.length_cons] at h
    simp at h
    refine ⟨c, rest, ?_⟩
    simp_all

/-- Anything beginning with the four-unit long-path marker is a long
path. -/
theorem isLongPath_start_append (l : U16Str) :
    Win.isLongPath (Win.LONG_PATH_START ++ l) = true := by
  simp [Win.isLongPath, Win.LONG_PATH_START]

/-- Anything beginning with the eight-unit UNC marker is a long UNC
path. -/
theorem isUncLongPath_start_append (l : U16Str) :
    Win.isUncLongPath (Win.UNC_LONG_PATH_START ++ l) = true := by
  simp [Win.isUncLongPath, Win.UNC_LONG_PATH_START]

/-- Prepending the long-path marker to a local-shaped path never forms
the UNC marker, because the colon in second position differs from the
letter N. -/
theorem isUncLongPath_start_append_local (a : Nat) (rest : U16Str) :
    Win.isUncLongPath (Win.LONG_PATH_START ++ a :: 58 :: 92 :: rest) = false := by
  simp [Win.isUncLongPath, Win.UNC_LONG_PATH_START, Win.LONG_PATH_START]

/-- Stripping the marker undoes prepending it, as long as the result is
not mistaken for a UNC long path. -/
theorem stripLongPathMarker_start (l : U16Str)
    (h : Win.isUncLongPath (Win.LONG_PATH_START ++ l) = false) :
    Win.stripLongPathMarker (Win.LONG_PATH_START ++ l) = l := by
  unfold Win.stripLongPathMarker
  rw [isLongPath_start_append, h]
  simp [Win.LONG_PATH_START]

/-- Stripping the UNC marker replaces it by the two leading
backslashes. -/
theorem stripLongPathMarker_unc (l : U16Str) :
    Win.stripLongPathMarker (Win.UNC_LONG_PATH_START ++ l) = 92 :: 92 :: l := by
  have h1 : Win.isLongPath (Win.UNC_LONG_PATH_START ++ l) = true := by
    show Win.isLongPath (Win.LONG_PATH_START ++ ([85, 78, 67, 92] ++ l)) = true
    exact isLongPath_start_append _
  unfold Win.stripLongPathMarker
  rw [h1, isUncLongPath_start_append]
  simp [Win.UNC_LONG_PATH_START]

/-- A path that is long stays long after appending a suffix. -/
theorem isLongPath_append (R s : U16Str) (hR : Win.isLongPath R = true) :
    Win.isLongPath (R ++ s) = true := by
  simp only [Win.isLongPath, Bool.and_eq_true, decide_eq_true_eq, beq_iff_eq] at hR ⊢
  obtain ⟨h1, h2⟩ := hR
  refine ⟨?_, ?_⟩
  · rw [List.length_append]
    exact Nat.le_trans h1 (Nat.le_add_right _ _)
  · rw [List.take_append_of_le_length h1]
    exact h2

/-- For a root of length at least 4, appending a suffix does not change
whether the path is long. -/
theorem isLongPath_append_of_le (R s : U16Str) (h4 : 4 ≤ R.length) :
    Win.isLongPath (R ++ s) = Win.isLongPath R := by
  simp only [Win.isLongPath, List.length_append,
    List.take_append_of_le_length h4]
  have ha : 4 ≤ R.length + s.length := Nat.le_trans h4 (Nat.le_add_right _ _)
  simp [h4, ha]

/-- For a root of length at least 8, appending a suffix does not change
whether the path is a long UNC path. -/
theorem isUncLongPath_append_of_le (R s : U16Str) (h8 : 8 ≤ R.length) :
    Win.isUncLongPath (R ++ s) = Win.isUncLongPath R := by
  simp only [Win.isUncLongPath, List.length_append,
    List.take_append_of_le_length h8]
  have ha : 8 ≤ R.length + s.length := Nat.le_trans h8 (Nat.le_add_right _ _)
  simp [h8, ha]

/-- The marker strip distributes over appending a child suffix to the
watch root, provided the root has at least 8 units or the combined path
carries no long-path marker — true of every realistic root. -/
theorem stripLongPathMarker_append (R s : U16Str)
    (h : 8 ≤ R.length ∨ Win.isLongPath (R ++ s) = false) :
    Win.stripLongPathMarker (R ++ s) = Win.stripLongPathMarker R ++ s := by
  cases h with
  | inl h8 =>
    have h4 : 4 ≤ R.length := Nat.le_trans (by decide) h8
    simp only [Win.stripLongPathMarker, isLongPath_append_of_le R s h4,
      isUncLongPath_append_of_le R s h8]
    cases hL : Win.isLongPath R with
    | false => simp [hL]
    | true =>
      cases hU : Win.isUncLongPath R with
      | false => simp [hL, hU, List.drop_append_of_le_length h4]
      | true => simp [hL, hU, List.drop_append_of_le_length h8]
  | inr hno =>
    have hnoR : Win.isLongPath R = false := by
      cases hR : Win.isLongPath R with
      | false => rfl
      | true =>
        rw [isLongPath_append R s hR] at hno
        cases hno
    simp [Win.stripLongPathMarker, hnoR, hno]

/-! Theorems settling the claims. -/

/-- C1: the code's `Server::handleEvent` tests the grouped rows of the
normalization table with `IS_SET`, which demands every flag of the
mask. A flag word containing `Mount` alone is therefore reported as an
unknown event and a flag word containing `ItemXattrMod` alone likewise,
while the spec's table (the `IS_ANY_SET` reading) maps them to
INVALIDATED and MODIFIED respectively. -/
theorem c1_grouped_flags_code_bug :
    Apple.Server.handleEvent [97] Apple.kFSEventStreamEventFlagMount
        = .unknownEvent [97]
      ∧ Apple.specNormalizationKind [97] Apple.kFSEventStreamEventFlagMount
        = .change .invalidated [97]
      ∧ Apple.Server.handleEvent [97] Apple.kFSEventStreamEventFlagItemXattrMod
        = .unknownEvent [97]
      ∧ Apple.specNormalizationKind [97] Apple.kFSEventStreamEventFlagItemXattrMod
        = .change .modified [97] := by
  decide

/-- C3: with the single watch point rooted at the two code units
slash-a, the query slash-a-b starts with the root but the next unit is
the letter b, not a slash, so the intended predicate rejects it and
`getWatchPointState` should throw; the code's condition
`path.at(prefix.size() == '/')` nevertheless accepts it and returns the
watch point's state. -/
theorem c3_watch_point_state_code_bug :
    Apple.Server.getWatchPointState [([47, 97], .HISTORICAL)] [47, 97, 98]
        = .ok .HISTORICAL
      ∧ Apple.specWatchPointMatches [47, 97] [47, 97, 98] = false :=
  ⟨rfl, by decide⟩

/-- C6: a completion routine run for a `LISTENING` watch point with
error code `ACCESS_DENIED`, a root that is no longer a directory, a
non-terminated server and zero transferred bytes emits a REMOVED event
and then, because the `ACCESS_DENIED` branch neither returns nor sets
the status, falls into the zero-bytes branch and additionally emits an
INVALIDATED event — not exactly one REMOVED event as claimed. -/
theorem c6_access_denied_code_bug :
    Win.WatchPoint.handleEventsInBuffer ⟨false, .success⟩ false .LISTENING [97]
        Win.ERROR_ACCESS_DENIED [] 0
      = ⟨.FINISHED, [(Win.FILE_EVENT_REMOVED, [97]), (Win.FILE_EVENT_INVALIDATE, [97])], false⟩ := by
  decide

/-- C4, counterexample: a batch whose event ids are 5 then 3 (both
events carrying only the `HistoryDone` flag) makes `lastSeenEventId`
take the values 5 then 3, which is not non-decreasing, because
`Server::handleEvents` assigns each incoming id unconditionally. -/
theorem c4_counterexample :
    ¬ List.Pairwise (· ≤ ·)
        (Apple.Server.lastSeenTrace ⟨[], 0, true, false⟩
          [⟨[97], Apple.kFSEventStreamEventFlagHistoryDone, 5⟩,
            ⟨[97], Apple.kFSEventStreamEventFlagHistoryDone, 3⟩]) := by
  decide

/-- C7, counterexample: unregistering the duplicate list holding the
path 97 twice, on a server where that path is registered, returns
`false` although every path of the list was registered at the time of
the call — the first erase removes the entry, so the second misses. -/
theorem c7_counterexample :
    (Apple.Server.unregisterPaths ⟨[([97], .HISTORICAL)], 0, true, true⟩ [[97], [97]]).2 = false
      ∧ ∀ p ∈ [[97], [97]], Apple.containsPath [([97], Apple.WatchPointState.HISTORICAL)] p = true := by
  decide

/-- C9, counterexample: for the three-unit root backslash-backslash-
question-mark, appending a backslash and the file name x forms the
long-path marker, so `Server::handleEvent` strips the first four units
and reports the bare x — which is not the user-facing root followed by
a backslash and the file name, and does not have the user-facing root
as a prefix. -/
theorem c9_counterexample :
    (Win.Server.handleEvent [92, 92, 63] ⟨Win.FILE_ACTION_ADDED, [120]⟩).2 = [120]
      ∧ Win.stripLongPathMarker [92, 92, 63] = [92, 92, 63]
      ∧ (Win.Server.handleEvent [92, 92, 63] ⟨Win.FILE_ACTION_ADDED, [120]⟩).2
        ≠ Win.stripLongPathMarker [92, 92, 63] ++ 92 :: [120] := by
  decide

/-- C10, counterexample: registering an already-watched path closes the
event stream, then throws before reopening it, so after that register
command completes the watch-point set is non-empty while no event
stream exists — refuting the claimed equivalence for every completed
register command. -/
theorem c10_counterexample :
    (Apple.Server.registerPaths ⟨[([97], .HISTORICAL)], 0, true, true⟩ [[97]]).1.eventStream = false
      ∧ (Apple.Server.registerPaths ⟨[([97], .HISTORICAL)], 0, true, true⟩ [[97]]).1.watchPoints ≠ [] := by
  decide

/-- C2: registering a path that already has a watch point raises the
ALREADY_WATCHED `FileWatcherException` — on macOS for any path of the
batch already present in the map, and on Windows for an existing watch
point in any status other than `FINISHED`; a Windows watch point in
status `FINISHED` is instead first erased and the path registered
anew. -/
theorem c2_already_watched (s : Apple.ServerState) (paths : List U16Str) (p : U16Str)
    (wwps : List (U16Str × WatchPointStatus)) (q : U16Str) (st : WatchPointStatus)
    (ctor : Except Unit WatchPointStatus)
    (h1 : p ∈ paths) (h2 : Apple.containsPath s.watchPoints p = true)
    (h3 : Win.lookupPath wwps (Win.convertToLongPathIfNeeded q) = some st) :
    (Apple.Server.registerPaths s paths).2 = false
      ∧ (st ≠ .FINISHED → Win.Server.registerPath wwps q ctor = .error ())
      ∧ (st = .FINISHED →
          Win.Server.registerPath wwps q ctor
            = Win.emplaceWatchPoint
                (Win.eraseWinPath wwps (Win.convertToLongPathIfNeeded q))
                (Win.convertToLongPathIfNeeded q) ctor) := by
  refine ⟨?_, ?_, ?_⟩
  · have hloop := registerLoop_already_watched s.lastSeenEventId p paths s.watchPoints h1 h2
    simp [Apple.Server.registerPaths, Apple.Server.closeEventStream, hloop]
  · intro hst
    simp [Win.Server.registerPath, h3, hst]
  · intro hst
    simp [Win.Server.registerPath, h3, hst]

/-- C2, witness: with the path 97 already registered on the macOS
server, registering it again fails; with the path 98 held by a
`LISTENING` Windows watch point, registering it again fails. -/
theorem c2_witness :
    (Apple.Server.registerPaths ⟨[([97], .HISTORICAL)], 0, true, true⟩ [[97]]).2 = false
      ∧ Win.Server.registerPath [([98], .LISTENING)] [98] (.ok .LISTENING) = .error () := by
  have h := c2_already_watched ⟨[([97], .HISTORICAL)], 0, true, true⟩ [[97]] [97]
    [([98], .LISTENING)] [98] .LISTENING (.ok .LISTENING)
    (by decide) (by decide) (by decide)
  exact ⟨h.1, h.2.1 (by decide)⟩

/-- C8: `Command::execute` never propagates an exception from
`perform`: a failure outcome is captured into the command's failure
slot, a success leaves the slot unchanged, and in either case the
`executed` condition variable is notified exactly once. -/
theorem c8_execute_captures_failure {E : Type} (perform : Except E Unit) (c : CommandState E) :
    (Command.execute perform c).notifyCount = c.notifyCount + 1
      ∧ (∀ e, perform = .error e → (Command.execute perform c).failure = some e)
      ∧ (perform = .ok () → (Command.execute perform c).failure = c.failure) := by
  refine ⟨?_, ?_, ?_⟩
  · cases perform <;> rfl
  · intro e he
    subst he
    rfl
  · intro he
    subst he
    rfl

/-- C8, witness: a command whose `perform` throws the exception 7 ends
with that exception captured, one notification, and no exception
escaping. -/
theorem c8_witness :
    (Command.execute (.error 7) (⟨none, 0⟩ : CommandState Nat)).failure = some 7
      ∧ (Command.execute (.error 7) (⟨none, 0⟩ : CommandState Nat)).notifyCount = 0 + 1 := by
  have h := c8_execute_captures_failure (.error 7) (⟨none, 0⟩ : CommandState Nat)
  exact ⟨h.2.1 7 rfl, h.1⟩

/-- C7 amended: for a duplicate-free list of paths, `unregisterPaths`
returns false exactly when at least one path of the list was not
registered at the time of the call, and it attempts every path of the
list — the final map is the initial map with every listed path erased,
misses notwithstanding. For lists with duplicates the iff fails (see
the counterexample), because a later duplicate misses the entry the
earlier one erased. -/
theorem c7_amended (s : Apple.ServerState) (paths : List U16Str) (hnd : paths.Nodup) :
    ((Apple.Server.unregisterPaths s paths).2 = false
        ↔ ∃ p ∈ paths, Apple.containsPath s.watchPoints p = false)
      ∧ (Apple.Server.unregisterPaths s paths).1.watchPoints
        = paths.foldl Apple.erasePath s.watchPoints := by
  refine ⟨?_, ?_⟩ <;>
    simp only [Apple.Server.unregisterPaths, Apple.Server.closeEventStream,
      openEventStream_watchPoints]
  · exact unregisterLoop_false_iff paths s.watchPoints hnd
  · exact unregisterLoop_removes_all paths s.watchPoints

/-- C7, witness: unregistering the two distinct paths 97 and 98 when
only 97 is registered returns false, by the amended equivalence. -/
theorem c7_witness :
    (Apple.Server.unregisterPaths ⟨[([97], .HISTORICAL)], 0, true, true⟩ [[97], [98]]).2 = false := by
  have h := c7_amended ⟨[([97], .HISTORICAL)], 0, true, true⟩ [[97], [98]] (by decide)
  exact h.1.mpr ⟨[98], by decide, by decide⟩

/-- C4 amended: `lastSeenEventId` always equals the id of the most
recently processed event, and the assignment happens before any
callback for that event (every emitted report carries a tag equal to
the event's id); consequently the value is monotonically non-decreasing
over a run whenever the kernel delivers non-decreasing event ids. With
arbitrary ids the monotonicity fails (see the counterexample), since
the code assigns each incoming id unconditionally. -/
theorem c4_amended (s : Apple.ServerState) (evs : List Apple.AppleEvent)
    (ev : Apple.AppleEvent)
    (h : List.Pairwise (· ≤ ·) (evs.map Apple.AppleEvent.eventId)) :
    List.Pairwise (· ≤ ·) (Apple.Server.lastSeenTrace s evs)
      ∧ (Apple.Server.processEvent s ev).1.lastSeenEventId = ev.eventId
      ∧ ∀ pr ∈ (Apple.Server.processEvent s ev).2.1, pr.1 = ev.eventId :=
  ⟨lastSeenTrace_pairwise evs s h, processEvent_lastSeenEventId s ev,
    processEvent_reports_tagged s ev⟩

/-- C4, witness: a batch with ids 3 then 5 yields a non-decreasing
trace, and an event with id 3 whose flags demand a report emits it
tagged 3. -/
theorem c4_witness :
    List.Pairwise (· ≤ ·)
        (Apple.Server.lastSeenTrace ⟨[], 0, true, false⟩
          [⟨[97], Apple.kFSEventStreamEventFlagHistoryDone, 3⟩,
            ⟨[97], Apple.kFSEventStreamEventFlagHistoryDone, 5⟩])
      ∧ ∀ pr ∈ (Apple.Server.processEvent ⟨[], 0, true, false⟩
          ⟨[97], Apple.kFSEventStreamEventFlagItemCreated, 3⟩).2.1, pr.1 = 3 := by
  have h := c4_amended ⟨[], 0, true, false⟩
    [⟨[97], Apple.kFSEventStreamEventFlagHistoryDone, 3⟩,
      ⟨[97], Apple.kFSEventStreamEventFlagHistoryDone, 5⟩]
    ⟨[97], Apple.kFSEventStreamEventFlagItemCreated, 3⟩ (by decide)
  exact ⟨h.1, h.2.2⟩

/-- C10 amended: `openEventStream` is a no-op on an empty watch point
map, and after a register command that completes successfully, or after
any unregister command, a live event stream exists exactly when the
watch point set is non-empty. After a register command that completes
with a failure the equivalence does not hold (see the counterexample):
the stream was closed up front and is not reopened. -/
theorem c10_amended (s : Apple.ServerState) (paths : List U16Str) :
    (s.watchPoints.isEmpty = true → Apple.Server.openEventStream s = s)
      ∧ ((Apple.Server.registerPaths s paths).2 = true →
          ((Apple.Server.registerPaths s paths).1.eventStream = true
            ↔ (Apple.Server.registerPaths s paths).1.watchPoints ≠ []))
      ∧ ((Apple.Server.unregisterPaths s paths).1.eventStream = true
          ↔ (Apple.Server.unregisterPaths s paths).1.watchPoints ≠ []) := by
  refine ⟨?_, ?_, ?_⟩
  · intro h
    simp [Apple.Server.openEventStream, h]
  · intro hok
    cases hloop : (Apple.registerLoop s.lastSeenEventId s.watchPoints paths).2 with
    | false =>
      exfalso
      simp only [Apple.Server.registerPaths, Apple.Server.closeEventStream, hloop,
        Bool.false_eq_true, if_false] at hok
    | true =>
      have h1 : (Apple.Server.registerPaths s paths).1
          = Apple.Server.openEventStream
              { s with
                eventStream := false,
                watchPoints := (Apple.registerLoop s.lastSeenEventId s.watchPoints paths).1 } := by
        simp [Apple.Server.registerPaths, Apple.Server.closeEventStream, hloop]
      rw [h1, openEventStream_watchPoints]
      exact openEventStream_eventStream _ rfl
  · have h1 : (Apple.Server.unregisterPaths s paths).1
        = Apple.Server.openEventStream
            { s with
              eventStream := false,
              watchPoints := (Apple.unregisterLoop s.watchPoints paths).1 } := rfl
    rw [h1, openEventStream_watchPoints]
    exact openEventStream_eventStream _ rfl

/-- C10, witness: opening the stream on an empty server changes
nothing, and after successfully registering the path 97 on it the
stream-exists equivalence holds. -/
theorem c10_witness :
    Apple.Server.openEventStream ⟨[], 0, true, false⟩ = ⟨[], 0, true, false⟩
      ∧ ((Apple.Server.registerPaths ⟨[], 0, true, false⟩ [[97]]).1.eventStream = true
          ↔ (Apple.Server.registerPaths ⟨[], 0, true, false⟩ [[97]]).1.watchPoints ≠ []) :=
  ⟨(c10_amended ⟨[], 0, true, false⟩ [[97]]).1 (by decide),
    (c10_amended ⟨[], 0, true, false⟩ [[97]]).2.1 (by decide)⟩

/-- C5: `convertToLongPathIfNeeded` leaves paths of at most 240 units
and already-long paths unchanged; an absolute local path longer than
240 units gains the long-path marker and an absolute UNC path longer
than 240 units trades its two leading backslashes for the UNC marker;
in both rewritten cases the strip applied on event emission restores
exactly the original path. -/
theorem c5_long_path_roundtrip (P : U16Str) :
    (P.length ≤ 240 → Win.convertToLongPathIfNeeded P = P)
      ∧ (Win.isLongPath P = true → Win.convertToLongPathIfNeeded P = P)
      ∧ (240 < P.length → Win.isLongPath P = false → Win.isAbsoluteLocalPath P = true →
          Win.convertToLongPathIfNeeded P = Win.LONG_PATH_START ++ P
            ∧ Win.stripLongPathMarker (Win.convertToLongPathIfNeeded P) = P)
      ∧ (240 < P.length → Win.isLongPath P = false → Win.isAbsoluteLocalPath P = false →
          Win.isAbsoluteUncPath P = true →
          Win.convertToLongPathIfNeeded P = Win.UNC_LONG_PATH_START ++ P.drop 2
            ∧ Win.stripLongPathMarker (Win.convertToLongPathIfNeeded P) = P) := by
  refine ⟨?_, ?_, ?_, ?_⟩
  · intro h
    simp [Win.convertToLongPathIfNeeded, h]
  · intro h
    by_cases hlen : P.length ≤ 240
    · simp [Win.convertToLongPathIfNeeded, hlen]
    · simp [Win.convertToLongPathIfNeeded, hlen, h]
  · intro hlen hlong hloc
    have hconv : Win.convertToLongPathIfNeeded P = Win.LONG_PATH_START ++ P := by
      simp [Win.convertToLongPathIfNeeded, Nat.not_le.mpr hlen, hlong, hloc]
    refine ⟨hconv, ?_⟩
    rw [hconv]
    obtain ⟨a, rest, hP⟩ := absoluteLocalPath_shape P hloc
    rw [hP]
    exact stripLongPathMarker_start _ (isUncLongPath_start_append_local a rest)
  · intro hlen hlong hloc hunc
    have hconv : Win.convertToLongPathIfNeeded P = Win.UNC_LONG_PATH_START ++ P.drop 2 := by
      simp [Win.convertToLongPathIfNeeded, Nat.not_le.mpr hlen, hlong, hloc, hunc]
    refine ⟨hconv, ?_⟩
    rw [hconv, stripLongPathMarker_unc]
    obtain ⟨c, rest, hP⟩ := absoluteUncPath_shape P hunc
    rw [hP]
    simp

/-- A 241-unit absolute local path: the letter C, a colon and a
backslash followed by 238 copies of the letter a. -/
def longLocalPathExample : U16Str := 67 :: 58 :: 92 :: List.replicate 238 97

set_option maxRecDepth 10000 in
/-- C5, witness: the 241-unit local path is rewritten to the marked
form and the strip restores it exactly. -/
theorem c5_witness :
    240 < longLocalPathExample.length
      ∧ Win.stripLongPathMarker (Win.convertToLongPathIfNeeded longLocalPathExample)
        = longLocalPathExample :=
  ⟨by decide,
    ((c5_long_path_roundtrip longLocalPathExample).2.2.1
      (by decide) (by decide) (by decide)).2⟩

/-- C9 amended: provided the watch root has at least 8 units, or the
assembled path carries no long-path marker — satisfied by every root
that registration can produce — the path reported for a
`FILE_NOTIFY_INFORMATION` entry is the user-facing root (the root with
its long-path marker stripped), followed by a backslash and the
entry's file name when that name is non-empty; hence every reported
path extends the user-facing root. For degenerate short roots the
claim fails (see the counterexample). -/
theorem c9_amended (R : U16Str) (info : Win.FileNotifyInfo)
    (h : 8 ≤ R.length
      ∨ Win.isLongPath (R ++ (if info.fileName.isEmpty then [] else 92 :: info.fileName)) = false) :
    (Win.Server.handleEvent R info).2
        = Win.stripLongPathMarker R ++ (if info.fileName.isEmpty then [] else 92 :: info.fileName)
      ∧ ∃ t, (Win.Server.handleEvent R info).2 = Win.stripLongPathMarker R ++ t := by
  have hpath : (if info.fileName.isEmpty then R else R ++ 92 :: info.fileName)
      = R ++ (if info.fileName.isEmpty then [] else 92 :: info.fileName) := by
    cases info.fileName.isEmpty <;> simp
  have hmain : (Win.Server.handleEvent R info).2
      = Win.stripLongPathMarker R
        ++ (if info.fileName.isEmpty then [] else 92 :: info.fileName) := by
    show Win.stripLongPathMarker (if info.fileName.isEmpty then R else R ++ 92 :: info.fileName)
      = _
    rw [hpath]
    exact stripLongPathMarker_append R _ h
  exact ⟨hmain, ⟨_, hmain⟩⟩

/-- C9, witness: for the 8-unit local root and the single-letter file
name x, the reported path is the root followed by a backslash and the
name. -/
theorem c9_witness :
    (Win.Server.handleEvent [67, 58, 92, 97, 98, 99, 100, 101]
        ⟨Win.FILE_ACTION_ADDED, [120]⟩).2
      = Win.stripLongPathMarker [67, 58, 92, 97, 98, 99, 100, 101]
        ++ (if ([120] : U16Str).isEmpty then [] else 92 :: [120]) :=
  (c9_amended [67, 58, 92, 97, 98, 99, 100, 101] ⟨Win.FILE_ACTION_ADDED, [120]⟩
    (Or.inl (by decide))).1

end NativePlatform
